import Mathlib

/-!
Verification of the instance-admission controller of generatorrunner
(`main.cpp`): the shared slot table, `checkInstances`, `instControlUpdate`,
the retry loop of `limitInstances`, and the `max-instances` fragment of
`main`.  The shared-memory block is modelled as a function from word index
to `qint64` value (index 0 the occupied count, indices 1.. the slots);
process liveness (`kill(pid, 0)`) is modelled by a boolean oracle; the
unbounded retry loop is modelled with explicit fuel together with an event
trace recording creates, attaches, lock and unlock calls, table accesses
and backoff sleeps.
-/

/-- Hard capacity ceiling of the slot table, `#define MAX_INSTANCES 10`. -/
def MAX_INSTANCES : Int := 10

/-- Exit code `EXIT_SUCCESS` (0). -/
def EXIT_SUCCESS : Int := 0

/-- Exit code `EXIT_FAILURE` (1). -/
def EXIT_FAILURE : Int := 1

/-- Result codes of one admission attempt, `enum { UPDATED, WAITING, ERROR }`. -/
inductive UpdateResult
  | UPDATED
  | WAITING
  | ERROR
deriving DecidableEq

/-- The shared-memory block `sizeof(qint64) * (MAX_INSTANCES + 1)` bytes wide,
viewed as `qint64` words: `data 0` is the occupied count, `data i` for
`1 ≤ i` is the pid recorded in slot `i`. -/
structure Mem where
  data : Nat → Int

/-- Writing one word of the shared block. -/
def Mem.write (m : Mem) (i : Nat) (v : Int) : Mem :=
  ⟨fun j => if j = i then v else m.data j⟩

/-- Scan step of `checkInstances`: the C loop
`for (counter = 1; counter <= *instControlData; counter++)` visits slot
indices in order; the first slot whose recorded pid is no longer alive
(`kill(pid, 0)` nonzero) is overwritten with `currentProc` and the function
returns `UPDATED`; if every visited holder is alive it returns `WAITING`. -/
def checkInstancesAux (alive : Int → Bool) (currentProc : Int) (m : Mem) :
    List Nat → UpdateResult × Mem
  | [] => (.WAITING, m)
  | i :: rest =>
    if alive (m.data i) then checkInstancesAux alive currentProc m rest
    else (.UPDATED, m.write i currentProc)

/-- Embedding of `checkInstances`: scans slots `1 .. *instControlData` in
index order, reclaiming the first slot held by a dead process. -/
def checkInstances (alive : Int → Bool) (currentProc : Int) (m : Mem) :
    UpdateResult × Mem :=
  checkInstancesAux alive currentProc m (List.range' 1 (m.data 0).toNat)

/-- Embedding of `instControlUpdate`: on a freshly created table (`clean`)
write count 1 and put `currentProc` in slot 1; otherwise read the count
`instances`, and either occupy slot `instances + 1` (incrementing the
count first, as `*instControlData = ++instances` does) when
`instances < maxInst`, or fall back to `checkInstances`. -/
def instControlUpdate (maxInst : Int) (alive : Int → Bool) (currentProc : Int)
    (clean : Bool) (m : Mem) : UpdateResult × Mem :=
  if clean then
    (.UPDATED, (m.write 0 1).write 1 currentProc)
  else
    let instances := m.data 0
    if instances < maxInst then
      (.UPDATED, (m.write 0 (instances + 1)).write (instances + 1).toNat currentProc)
    else
      checkInstances alive currentProc m

/-- Fixed backoff of the retry loop, `sleep(10)`. -/
def BACKOFF : Nat := 10

/-- Observable events of one `limitInstances` call on the shared resources. -/
inductive Event
  | createEv (ok : Bool)
  | attachEv
  | lockEv (ok : Bool)
  | tableAccessEv
  | sleepEv (secs : Nat)
  | unlockEv
  | detachEv
deriving DecidableEq

/-- Embedding of the loop `while (instControlUpdate(...) == WAITING) sleep(10);`
with explicit fuel.  `k` numbers the attempts, and the liveness oracle may
change between attempts (`aliveAt k`).  Returns the emitted events (one
`tableAccessEv` per attempt, one `sleepEv BACKOFF` after each `WAITING`
attempt), the final memory and the index of the attempt that left the loop;
`none` when the fuel ran out with every attempt still `WAITING`. -/
def admitLoop (maxInst : Int) (aliveAt : Nat → Int → Bool) (currentProc : Int)
    (clean : Bool) : Nat → Nat → Mem → Option (List Event × Mem × Nat)
  | _, 0, _ => none
  | k, fuel + 1, m =>
    let r := instControlUpdate maxInst (aliveAt k) currentProc clean m
    if r.1 = .WAITING then
      match admitLoop maxInst aliveAt currentProc clean (k + 1) fuel r.2 with
      | none => none
      | some (evs, m2, j) => some (.tableAccessEv :: .sleepEv BACKOFF :: evs, m2, j)
    else
      some ([.tableAccessEv], r.2, k)

/-- Environment of one `limitInstances` call: whether
`QSharedMemory::create` succeeds (its failure meaning the segment already
existed, so `clean = false` and an `attach` follows), whether
`QSharedMemory::lock` succeeds, the caller's pid, the liveness oracle per
attempt, and the initial contents of the shared block. -/
structure Env where
  createOk : Bool
  lockOk : Bool
  pid : Int
  aliveAt : Nat → Int → Bool
  mem0 : Mem

/-- Embedding of `limitInstances`.  The argument string has already been put
through `QString::toInt`, giving `ok` and `maxInst`.  Validation is exactly
`if (!ok || maxInst > MAX_INSTANCES) return EXIT_FAILURE;`, before the
shared segment is even constructed.  Otherwise the segment is created (or
attached), `lock()` is called — its failure only logged — the admission
loop runs, and `unlock`/`detach` follow; the return value is then
`EXIT_SUCCESS`.  `none` means the call is still inside the retry loop after
`fuel` attempts. -/
def limitInstances (e : Env) (ok : Bool) (maxInst : Int) (fuel : Nat) :
    Option (Int × List Event × Mem) :=
  if ok = false ∨ maxInst > MAX_INSTANCES then
    some (EXIT_FAILURE, [], e.mem0)
  else
    let preEvs : List Event :=
      Event.createEv e.createOk ::
        ((if e.createOk then [] else [Event.attachEv]) ++ [Event.lockEv e.lockOk])
    match admitLoop maxInst e.aliveAt e.pid e.createOk 0 fuel e.mem0 with
    | none => none
    | some (evs, m, _) =>
      some (EXIT_SUCCESS, preEvs ++ evs ++ [Event.unlockEv, Event.detachEv], m)

/-- Diagnostic printed by `main` when `limitInstances` fails
(`"You must set max-instances using numbers [0 - " << MAX_INSTANCES << "]"`). -/
def maxInstancesMessage : String :=
  "You must set max-instances using numbers [0 - " ++ toString MAX_INSTANCES ++ "]"

/-- Embedding of the `max-instances` fragment of `main`: when the option is
present, a `limitInstances` failure makes the whole program print the
diagnostic and return `EXIT_FAILURE`; on success nothing is printed and
control continues to the pipeline (`some none`).  `none` propagates a still
blocked admission loop. -/
def mainMaxInstances (e : Env) (present ok : Bool) (maxInst : Int) (fuel : Nat) :
    Option (Option (Int × String)) :=
  if present then
    match limitInstances e ok maxInst fuel with
    | none => none
    | some r =>
      if r.1 = EXIT_FAILURE then some (some (EXIT_FAILURE, maxInstancesMessage))
      else some none
  else
    some none

/-- Number of counted slots whose recorded holder is currently alive. -/
def liveHolders (alive : Int → Bool) (m : Mem) : Nat :=
  ((List.range' 1 (m.data 0).toNat).filter (fun i => alive (m.data i))).length

/-- An event trace touches the shared table if it creates it, attaches to it,
or reads or writes it. -/
def touchesTable (evs : List Event) : Bool :=
  evs.any fun e =>
    match e with
    | .createEv _ => true
    | .attachEv => true
    | .tableAccessEv => true
    | _ => false

/-- Fold deciding whether some backoff sleep happens while the mutex is held;
the accumulator tracks whether the lock is currently held. -/
def sleepWhileLocked : Bool → List Event → Bool
  | _, [] => false
  | _, Event.lockEv ok :: rest => sleepWhileLocked ok rest
  | _, Event.unlockEv :: rest => sleepWhileLocked false rest
  | held, Event.sleepEv _ :: rest => held || sleepWhileLocked held rest
  | held, _ :: rest => sleepWhileLocked held rest

/-- Fold deciding whether some table access happens while the mutex is NOT
held; the accumulator tracks whether the lock is currently held. -/
def accessWhileUnlocked : Bool → List Event → Bool
  | _, [] => false
  | _, Event.lockEv ok :: rest => accessWhileUnlocked ok rest
  | _, Event.unlockEv :: rest => accessWhileUnlocked false rest
  | held, Event.tableAccessEv :: rest => !held || accessWhileUnlocked held rest
  | held, _ :: rest => accessWhileUnlocked held rest

/-- One admission attempt by some contender: its liveness view and its pid. -/
structure Attempt where
  alive : Int → Bool
  pid : Int

/-- Sequential composition of admission attempts on an existing table (all
with `clean = false`), each executed under the table lock. -/
def runAttempts (maxInst : Int) : Mem → List Attempt → Mem
  | m, [] => m
  | m, a :: rest => runAttempts maxInst (instControlUpdate maxInst a.alive a.pid false m).2 rest

/-- All-zero shared block. -/
def memZero : Mem := ⟨fun _ => 0⟩

/-- Event trace emitted by a loop run with `n` waiting attempts followed by
one successful attempt: `n` times a table access and a backoff sleep, then
the final table access. -/
def loopEvs : Nat → List Event
  | 0 => [.tableAccessEv]
  | n + 1 => .tableAccessEv :: .sleepEv BACKOFF :: loopEvs n

/-- Per-attempt liveness oracle under which every pid is alive at attempt 0
and dead afterwards. -/
def aliveAtW : Nat → Int → Bool := fun k _ => k == 0

/-- Environment of a first instance: fresh segment, working lock, every pid
alive. -/
def envC1 : Env := ⟨true, true, 42, fun _ _ => true, memZero⟩

/-- Table already holding one occupant, pid 7, count 1. -/
def memC2 : Mem := ⟨fun j => if j = 0 then 1 else if j = 1 then 7 else 0⟩

/-- Environment of a contender on a full one-slot table whose holder dies
after the first attempt. -/
def envC2 : Env := ⟨false, true, 9, aliveAtW, memC2⟩

/-- Table holding two occupants, pids 100 and 200, count 2. -/
def memC3 : Mem :=
  ⟨fun j => if j = 0 then 2 else if j = 1 then 100 else if j = 2 then 200 else 0⟩

/-- Liveness oracle under which only pid 300 is alive. -/
def aliveC3 : Int → Bool := fun p => p == 300

/-- Environment of a first instance used for the exit-contract scenario. -/
def envC8 : Env := ⟨true, true, 42, fun _ _ => true, memZero⟩

/-- Environment of a first instance whose `lock()` call fails. -/
def envC9 : Env := ⟨true, false, 5, fun _ _ => true, memZero⟩

theorem Mem.write_data (m : Mem) (i : Nat) (v : Int) (j : Nat) :
    (m.write i v).data j = if j = i then v else m.data j := rfl

theorem checkInstancesAux_cases (alive : Int → Bool) (p : Int) (m : Mem)
    (L : List Nat) :
    checkInstancesAux alive p m L = (.WAITING, m) ∨
      ∃ i ∈ L, alive (m.data i) = false ∧
        checkInstancesAux alive p m L = (.UPDATED, m.write i p) := by
  induction L with
  | nil => exact Or.inl rfl
  | cons i rest ih =>
    by_cases h : alive (m.data i)
    · rcases ih with h2 | ⟨j, hj, hd, h2⟩
      · exact Or.inl (by simp [checkInstancesAux, h, h2])
      · exact Or.inr ⟨j, List.mem_cons_of_mem _ hj, hd, by simp [checkInstancesAux, h, h2]⟩
    · exact Or.inr ⟨i, List.mem_cons_self i rest, by simpa using h,
        by simp [checkInstancesAux, h]⟩

theorem checkInstancesAux_first (alive : Int → Bool) (p : Int) (m : Mem)
    (i : Nat) (b : Nat) :
    ∀ (a : Nat), a ≤ i → i < a + b → alive (m.data i) = false →
      (∀ j, a ≤ j → j < i → alive (m.data j) = true) →
      checkInstancesAux alive p m (List.range' a b) = (.UPDATED, m.write i p) := by
  induction b with
  | zero => intro a h1 h2 _ _; omega
  | succ n ih =>
    intro a h1 h2 hdead hlive
    rw [List.range'_succ]
    by_cases hai : a = i
    · subst hai
      simp [checkInstancesAux, hdead]
    · have ha : alive (m.data a) = true := hlive a le_rfl (by omega)
      simp only [checkInstancesAux, ha, if_pos]
      exact ih (a + 1) (by omega) (by omega) hdead (fun j hj1 hj2 => hlive j (by omega) hj2)

theorem instControlUpdate_shape (maxInst : Int) (alive : Int → Bool) (p : Int)
    (clean : Bool) (m : Mem) :
    (clean = true ∧ instControlUpdate maxInst alive p clean m =
        (.UPDATED, (m.write 0 1).write 1 p)) ∨
    (clean = false ∧ m.data 0 < maxInst ∧ instControlUpdate maxInst alive p clean m =
        (.UPDATED, (m.write 0 (m.data 0 + 1)).write (m.data 0 + 1).toNat p)) ∨
    (clean = false ∧ maxInst ≤ m.data 0 ∧
      (instControlUpdate maxInst alive p clean m = (.WAITING, m) ∨
        ∃ i, 1 ≤ i ∧ i ≤ (m.data 0).toNat ∧ alive (m.data i) = false ∧
          instControlUpdate maxInst alive p clean m = (.UPDATED, m.write i p))) := by
  by_cases hc : clean
  · exact Or.inl ⟨hc, by simp [instControlUpdate, hc]⟩
  · by_cases hlt : m.data 0 < maxInst
    · exact Or.inr (Or.inl ⟨by simpa using hc, hlt, by simp [instControlUpdate, hc, hlt]⟩)
    · refine Or.inr (Or.inr ⟨by simpa using hc, by omega, ?_⟩)
      have hrw : instControlUpdate maxInst alive p clean m =
          checkInstancesAux alive p m (List.range' 1 (m.data 0).toNat) := by
        simp [instControlUpdate, hc, hlt, checkInstances]
      rcases checkInstancesAux_cases alive p m (List.range' 1 (m.data 0).toNat) with
        h | ⟨i, hi, hd, h⟩
      · exact Or.inl (hrw.trans h)
      · rw [List.mem_range'_1] at hi
        exact Or.inr ⟨i, hi.1, by omega, hd, hrw.trans h⟩

theorem instControlUpdate_ne_error (maxInst : Int) (alive : Int → Bool) (p : Int)
    (clean : Bool) (m : Mem) :
    (instControlUpdate maxInst alive p clean m).1 ≠ .ERROR := by
  rcases instControlUpdate_shape maxInst alive p clean m with
    ⟨_, h⟩ | ⟨_, _, h⟩ | ⟨_, _, h | ⟨i, _, _, _, h⟩⟩ <;> simp [h]

theorem instControlUpdate_waiting (maxInst : Int) (alive : Int → Bool) (p : Int)
    (clean : Bool) (m : Mem)
    (h : (instControlUpdate maxInst alive p clean m).1 = .WAITING) :
    (instControlUpdate maxInst alive p clean m).2 = m := by
  rcases instControlUpdate_shape maxInst alive p clean m with
    ⟨_, h2⟩ | ⟨_, _, h2⟩ | ⟨_, _, h2 | ⟨i, _, _, _, h2⟩⟩ <;> rw [h2] at h ⊢ <;> simp_all

theorem admitLoop_succ_waiting (maxInst : Int) (aliveAt : Nat → Int → Bool)
    (p : Int) (clean : Bool) (k n : Nat) (m : Mem)
    (hw : (instControlUpdate maxInst (aliveAt k) p clean m).1 = .WAITING) :
    admitLoop maxInst aliveAt p clean k (n + 1) m =
      match admitLoop maxInst aliveAt p clean (k + 1) n m with
      | none => none
      | some (evs, m2, j) => some (.tableAccessEv :: .sleepEv BACKOFF :: evs, m2, j) := by
  have hm := instControlUpdate_waiting maxInst (aliveAt k) p clean m hw
  simp [admitLoop, hw, hm]

theorem admitLoop_succ_done (maxInst : Int) (aliveAt : Nat → Int → Bool)
    (p : Int) (clean : Bool) (k n : Nat) (m : Mem)
    (hw : (instControlUpdate maxInst (aliveAt k) p clean m).1 ≠ .WAITING) :
    admitLoop maxInst aliveAt p clean k (n + 1) m =
      some ([.tableAccessEv], (instControlUpdate maxInst (aliveAt k) p clean m).2, k) := by
  simp [admitLoop, hw]

theorem admitLoop_none_iff (maxInst : Int) (aliveAt : Nat → Int → Bool) (p : Int)
    (clean : Bool) : ∀ (fuel k : Nat) (m : Mem),
    admitLoop maxInst aliveAt p clean k fuel m = none ↔
      ∀ j, k ≤ j → j < k + fuel →
        (instControlUpdate maxInst (aliveAt j) p clean m).1 = .WAITING := by
  intro fuel
  induction fuel with
  | zero =>
    intro k m
    constructor
    · intro _ j h1 h2; omega
    · intro _; rfl
  | succ n ih =>
    intro k m
    by_cases hw : (instControlUpdate maxInst (aliveAt k) p clean m).1 = .WAITING
    · have hm := instControlUpdate_waiting maxInst (aliveAt k) p clean m hw
      rw [admitLoop_succ_waiting maxInst aliveAt p clean k n m hw]
      cases hrec : admitLoop maxInst aliveAt p clean (k + 1) n m with
      | none =>
        simp only [hrec]
        constructor
        · intro _ j hj1 hj2
          rcases Nat.eq_or_lt_of_le hj1 with heq | hlt
          · exact heq ▸ hw
          · exact ((ih (k + 1) m).1 hrec) j hlt (by omega)
        · intro _; trivial
      | some val =>
        obtain ⟨evs, m2, j⟩ := val
        simp only [hrec]
        constructor
        · intro h; exact absurd h (by simp)
        · intro hall
          have hnone : admitLoop maxInst aliveAt p clean (k + 1) n m = none :=
            (ih (k + 1) m).2 (fun j2 hj1 hj2 => hall j2 (by omega) (by omega))
          rw [hrec] at hnone; exact absurd hnone (by simp)
    · rw [admitLoop_succ_done maxInst aliveAt p clean k n m hw]
      constructor
      · intro h; simp at h
      · intro hall; exact absurd (hall k le_rfl (by omega)) hw

theorem admitLoop_some_spec (maxInst : Int) (aliveAt : Nat → Int → Bool) (p : Int)
    (clean : Bool) : ∀ (fuel k : Nat) (m : Mem) (evs : List Event) (m2 : Mem) (j : Nat),
    admitLoop maxInst aliveAt p clean k fuel m = some (evs, m2, j) →
      k ≤ j ∧ j < k + fuel
      ∧ (instControlUpdate maxInst (aliveAt j) p clean m).1 = .UPDATED
      ∧ (instControlUpdate maxInst (aliveAt j) p clean m).2 = m2
      ∧ (∀ i, k ≤ i → i < j → (instControlUpdate maxInst (aliveAt i) p clean m).1 = .WAITING)
      ∧ evs = loopEvs (j - k) := by
  intro fuel
  induction fuel with
  | zero => intro k m evs m2 j h; exact absurd h (by simp [admitLoop])
  | succ n ih =>
    intro k m evs m2 j h
    by_cases hw : (instControlUpdate maxInst (aliveAt k) p clean m).1 = .WAITING
    · have hm := instControlUpdate_waiting maxInst (aliveAt k) p clean m hw
      rw [admitLoop_succ_waiting maxInst aliveAt p clean k n m hw] at h
      cases hrec : admitLoop maxInst aliveAt p clean (k + 1) n m with
      | none => rw [hrec] at h; exact absurd h (by simp)
      | some val =>
        obtain ⟨evs0, m20, j0⟩ := val
        rw [hrec] at h
        simp only [Option.some.injEq, Prod.mk.injEq] at h
        obtain ⟨hevs, hm2, hj⟩ := h
        subst hevs hm2 hj
        obtain ⟨h1, h2, h3, h4, h5, h6⟩ := ih (k + 1) m evs0 m20 j0 hrec
        refine ⟨by omega, by omega, h3, h4, ?_, ?_⟩
        · intro i hi1 hi2
          rcases Nat.eq_or_lt_of_le hi1 with heq | hlt
          · exact heq ▸ hw
          · exact h5 i hlt hi2
        · rw [h6, show j0 - k = (j0 - (k + 1)) + 1 from by omega]
          rfl
    · rw [admitLoop_succ_done maxInst aliveAt p clean k n m hw] at h
      simp only [Option.some.injEq, Prod.mk.injEq] at h
      obtain ⟨hevs, hm2, hj⟩ := h
      subst hm2 hj
      have hupd : (instControlUpdate maxInst (aliveAt k) p clean m).1 = .UPDATED := by
        cases hv : (instControlUpdate maxInst (aliveAt k) p clean m).1 with
        | UPDATED => rfl
        | WAITING => exact absurd hv hw
        | ERROR => exact absurd hv (instControlUpdate_ne_error maxInst (aliveAt k) p clean m)
      refine ⟨le_rfl, by omega, hupd, rfl, ?_, ?_⟩
      · intro i hi1 hi2; omega
      · rw [← hevs, Nat.sub_self]; rfl

theorem loopEvs_head (n : Nat) :
    ∃ tl, loopEvs n = Event.tableAccessEv :: tl := by
  cases n with
  | zero => exact ⟨[], rfl⟩
  | succ k => exact ⟨Event.sleepEv BACKOFF :: loopEvs k, rfl⟩

theorem loopEvs_count_sleep (n : Nat) :
    (loopEvs n).count (Event.sleepEv BACKOFF) = n := by
  induction n with
  | zero => rfl
  | succ k ih => simp [loopEvs, List.count_cons, ih]

theorem loopEvs_sleep_pos (n : Nat) (h : Event.sleepEv BACKOFF ∈ loopEvs n) :
    1 ≤ n := by
  cases n with
  | zero => simp [loopEvs] at h
  | succ k => omega

theorem loopEvs_only_access_sleep (n : Nat) (e : Event) (he : e ∈ loopEvs n) :
    e = Event.tableAccessEv ∨ e = Event.sleepEv BACKOFF := by
  induction n with
  | zero => simpa [loopEvs] using Or.inl (by simpa [loopEvs] using he)
  | succ k ih =>
    simp only [loopEvs, List.mem_cons] at he
    rcases he with h | h | h
    · exact Or.inl h
    · exact Or.inr h
    · exact ih h

theorem sleepWhileLocked_loopEvs (n : Nat) (rest : List Event) (h : 1 ≤ n) :
    sleepWhileLocked true (loopEvs n ++ rest) = true := by
  cases n with
  | zero => omega
  | succ k => simp [loopEvs, sleepWhileLocked]

theorem limitInstances_invalid (e : Env) (ok : Bool) (maxInst : Int) (fuel : Nat)
    (h : ok = false ∨ maxInst > MAX_INSTANCES) :
    limitInstances e ok maxInst fuel = some (EXIT_FAILURE, [], e.mem0) := by
  rw [limitInstances, if_pos h]

theorem limitInstances_valid_eq (e : Env) (ok : Bool) (maxInst : Int) (fuel : Nat)
    (h : ¬(ok = false ∨ maxInst > MAX_INSTANCES)) :
    limitInstances e ok maxInst fuel =
      match admitLoop maxInst e.aliveAt e.pid e.createOk 0 fuel e.mem0 with
      | none => none
      | some (evs, m, _) =>
        some (EXIT_SUCCESS,
          (Event.createEv e.createOk ::
            ((if e.createOk then [] else [Event.attachEv]) ++ [Event.lockEv e.lockOk]))
            ++ evs ++ [Event.unlockEv, Event.detachEv], m) := by
  rw [limitInstances, if_neg h]

/-- C1 counterexample: `tryAdmit` with a configured maximum of 0 and of -1
does NOT return `InvalidConfiguration`: both pass the validation
`!ok || maxInst > MAX_INSTANCES`, proceed to create and write the shared
slot table, and return success. -/
theorem limitInstances_accepts_zero_and_negative :
    (limitInstances envC1 true 0 1).map (fun r => (r.1, touchesTable r.2.1)) =
      some (EXIT_SUCCESS, true) ∧
    (limitInstances envC1 true (-1) 1).map (fun r => (r.1, touchesTable r.2.1)) =
      some (EXIT_SUCCESS, true) := by
  constructor <;> rfl

/-- C1 (amended): `tryAdmit` returns `InvalidConfiguration` immediately,
without creating, attaching to, reading or writing the shared slot table,
when the configured maximum is non-numeric or exceeds `MAX_INSTANCES`
(so for 11, but not for 0 or -1, which pass validation). -/
theorem limitInstances_invalid_config (e : Env) (ok : Bool) (maxInst : Int)
    (fuel : Nat) (h : ok = false ∨ maxInst > MAX_INSTANCES) :
    limitInstances e ok maxInst fuel = some (EXIT_FAILURE, [], e.mem0) ∧
    touchesTable [] = false :=
  ⟨limitInstances_invalid e ok maxInst fuel h, rfl⟩

/-- Witness for C1 (amended) at maximum `MAX_INSTANCES + 1 = 11`. -/
theorem limitInstances_invalid_config_witness :
    limitInstances envC1 true 11 1 = some (EXIT_FAILURE, [], envC1.mem0) ∧
    touchesTable [] = false :=
  limitInstances_invalid_config envC1 true 11 1 (Or.inr (by decide))

/-- C4: on the reclamation path (`maxInst ≤ n` where `n` is the occupied
count), the attempt scans slots `1..n` in index order, overwrites the first
slot whose recorded holder is dead with the caller's pid, returns success,
and leaves the occupied count and every other slot unchanged; in
particular, when some recorded holder has terminated, a `tryAdmit` by a
different process succeeds even on a previously full table. -/
theorem reclamation_first_dead_slot (maxInst : Int) (alive : Int → Bool) (p : Int)
    (m : Mem) (i : Nat)
    (hfull : maxInst ≤ m.data 0)
    (hi1 : 1 ≤ i) (hi2 : i ≤ (m.data 0).toNat)
    (hdead : alive (m.data i) = false)
    (hfirst : ∀ j, 1 ≤ j → j < i → alive (m.data j) = true) :
    instControlUpdate maxInst alive p false m = (.UPDATED, m.write i p) ∧
    (m.write i p).data 0 = m.data 0 ∧
    ∀ j, j ≠ i → (m.write i p).data j = m.data j := by
  have hnot : ¬ m.data 0 < maxInst := by omega
  refine ⟨?_, ?_, ?_⟩
  · have hstep : instControlUpdate maxInst alive p false m = checkInstances alive p m := by
      simp [instControlUpdate, hnot]
    rw [hstep, checkInstances]
    exact checkInstancesAux_first alive p m i (m.data 0).toNat 1 hi1 (by omega) hdead
      (fun j hj1 hj2 => hfirst j hj1 hj2)
  · have : (0 : Nat) ≠ i := by omega
    simp [Mem.write_data, this]
  · intro j hj
    simp [Mem.write_data, hj]

/-- Witness for C4: pid 300 reclaims slot 1 of a full two-slot table whose
holders 100 and 200 are both dead. -/
theorem reclamation_first_dead_slot_witness :
    instControlUpdate 2 aliveC3 300 false memC3 = (.UPDATED, memC3.write 1 300) ∧
    (memC3.write 1 300).data 0 = memC3.data 0 ∧
    ∀ j, j ≠ 1 → (memC3.write 1 300).data j = memC3.data j :=
  reclamation_first_dead_slot 2 aliveC3 300 memC3 1 (by decide) (by decide) (by decide)
    (by decide) (fun j hj1 hj2 => absurd (Nat.lt_of_le_of_lt hj1 hj2) (by omega))

/-- C6: on a non-full admission attempt, a just-created table gets the
caller's pid in slot 1, count 1, and success without waiting; otherwise,
with occupied count `n < maxInst`, the caller's pid goes to slot `n + 1`,
the count becomes `n + 1`, and the attempt succeeds. -/
theorem non_full_admission (maxInst : Int) (alive : Int → Bool) (p : Int) (m : Mem)
    (h0 : 0 ≤ m.data 0) (h : m.data 0 < maxInst) :
    ((instControlUpdate maxInst alive p true m).1 = .UPDATED ∧
      ((instControlUpdate maxInst alive p true m).2).data 0 = 1 ∧
      ((instControlUpdate maxInst alive p true m).2).data 1 = p) ∧
    ((instControlUpdate maxInst alive p false m).1 = .UPDATED ∧
      ((instControlUpdate maxInst alive p false m).2).data 0 = m.data 0 + 1 ∧
      ((instControlUpdate maxInst alive p false m).2).data (m.data 0 + 1).toNat = p) := by
  have hstep : instControlUpdate maxInst alive p false m =
      (.UPDATED, (m.write 0 (m.data 0 + 1)).write (m.data 0 + 1).toNat p) := by
    simp [instControlUpdate, h]
  have hne : (0 : Nat) ≠ (m.data 0 + 1).toNat := by omega
  refine ⟨⟨rfl, rfl, rfl⟩, ?_, ?_, ?_⟩
  · rw [hstep]
  · rw [hstep]; simp [Mem.write_data, hne]
  · rw [hstep]; simp [Mem.write_data]

/-- Witness for C6: first and second admissions on an empty table with
maximum 2. -/
theorem non_full_admission_witness :
    ((instControlUpdate 2 aliveC3 5 true memZero).1 = .UPDATED ∧
      ((instControlUpdate 2 aliveC3 5 true memZero).2).data 0 = 1 ∧
      ((instControlUpdate 2 aliveC3 5 true memZero).2).data 1 = 5) ∧
    ((instControlUpdate 2 aliveC3 5 false memZero).1 = .UPDATED ∧
      ((instControlUpdate 2 aliveC3 5 false memZero).2).data 0 = memZero.data 0 + 1 ∧
      ((instControlUpdate 2 aliveC3 5 false memZero).2).data (memZero.data 0 + 1).toNat = 5) :=
  non_full_admission 2 aliveC3 5 memZero (by decide) (by decide)

/-- C10: a single admission step is deterministic: equal table contents,
equal liveness-probe results on every identifier, equal caller pid, equal
maximum and equal just-created flag give the same result code and the same
final table. -/
theorem single_step_deterministic (mi1 mi2 p1 p2 : Int) (al1 al2 : Int → Bool)
    (c1 c2 : Bool) (m1 m2 : Mem)
    (h1 : mi1 = mi2) (h2 : ∀ q, al1 q = al2 q) (h3 : p1 = p2) (h4 : c1 = c2)
    (h5 : m1 = m2) :
    instControlUpdate mi1 al1 p1 c1 m1 = instControlUpdate mi2 al2 p2 c2 m2 := by
  have hal : al1 = al2 := funext h2
  subst h1 hal h3 h4 h5
  rfl

/-- Witness for C10 at a concrete step. -/
theorem single_step_deterministic_witness :
    instControlUpdate 3 aliveC3 300 false memC3 = instControlUpdate 3 aliveC3 300 false memC3 :=
  single_step_deterministic 3 3 300 300 aliveC3 aliveC3 false false memC3 memC3 rfl
    (fun _ => rfl) rfl rfl rfl

/-- C3 counterexample: a successful attempt after which the occupied count
does not equal the number of live holders.  On a table with count 2 whose
holders 100 and 200 are both dead, a caller with pid 300 and maximum 3
takes the increment path: success, count 3, but only one counted slot
(slot 3) holds a live process — no reclamation pass happened. -/
theorem count_exceeds_live_holders :
    (instControlUpdate 3 aliveC3 300 false memC3).1 = .UPDATED ∧
    ((instControlUpdate 3 aliveC3 300 false memC3).2).data 0 = 3 ∧
    liveHolders aliveC3 (instControlUpdate 3 aliveC3 300 false memC3).2 = 1 := by
  refine ⟨rfl, by decide, by decide⟩

/-- C3 (amended): whenever an attempt returns success, the caller's pid is
written into exactly one slot in `1..MAX_INSTANCES` and every other slot is
unchanged (so the caller occupies exactly one slot); the occupied count,
however, need not equal the number of currently-live holders, since the
code performs no reclamation pass beyond reusing the first dead slot when
the table is full. -/
theorem success_occupies_exactly_one_slot (maxInst : Int) (alive : Int → Bool)
    (p : Int) (clean : Bool) (m : Mem)
    (h0 : 0 ≤ m.data 0) (h10 : m.data 0 ≤ MAX_INSTANCES) (hmax : maxInst ≤ MAX_INSTANCES)
    (h : (instControlUpdate maxInst alive p clean m).1 = .UPDATED) :
    ∃ i : Nat, 1 ≤ i ∧ (i : Int) ≤ MAX_INSTANCES ∧
      ((instControlUpdate maxInst alive p clean m).2).data i = p ∧
      ∀ j : Nat, 1 ≤ j → j ≠ i →
        ((instControlUpdate maxInst alive p clean m).2).data j = m.data j := by
  rcases instControlUpdate_shape maxInst alive p clean m with
    ⟨hc, heq⟩ | ⟨hc, hlt, heq⟩ | ⟨hc, hge, heq | ⟨i, hi1, hi2, hdead, heq⟩⟩
  · refine ⟨1, le_rfl, by simp [MAX_INSTANCES], ?_, ?_⟩
    · rw [heq]; rfl
    · intro j hj1 hj2
      rw [heq]
      have hj0 : j ≠ 0 := by omega
      simp [Mem.write_data, hj0, hj2]
  · have htn : 1 ≤ (m.data 0 + 1).toNat := by omega
    refine ⟨(m.data 0 + 1).toNat, htn, by simp [MAX_INSTANCES] at hmax ⊢; omega, ?_, ?_⟩
    · rw [heq]; simp [Mem.write_data]
    · intro j hj1 hj2
      rw [heq]
      have hj0 : j ≠ 0 := by omega
      simp [Mem.write_data, hj0, hj2]
  · rw [heq] at h; exact absurd h (by simp)
  · refine ⟨i, hi1, ?_, ?_, ?_⟩
    · simp [MAX_INSTANCES] at h10 ⊢; omega
    · rw [heq]; simp [Mem.write_data]
    · intro j hj1 hj2
      rw [heq]
      simp [Mem.write_data, hj2]

/-- Witness for C3 (amended) on a table with count 2 and maximum 3. -/
theorem success_occupies_exactly_one_slot_witness :
    ∃ i : Nat, 1 ≤ i ∧ (i : Int) ≤ MAX_INSTANCES ∧
      ((instControlUpdate 3 aliveC3 300 false memC3).2).data i = 300 ∧
      ∀ j : Nat, 1 ≤ j → j ≠ i →
        ((instControlUpdate 3 aliveC3 300 false memC3).2).data j = memC3.data j :=
  success_occupies_exactly_one_slot 3 aliveC3 300 false memC3 (by decide) (by decide)
    (by decide) rfl

theorem instControlUpdate_count_preserved (maxInst : Int) (alive : Int → Bool)
    (p : Int) (m : Mem) (h0 : 0 ≤ m.data 0) (h : m.data 0 ≤ maxInst) :
    0 ≤ ((instControlUpdate maxInst alive p false m).2).data 0 ∧
    ((instControlUpdate maxInst alive p false m).2).data 0 ≤ maxInst := by
  rcases instControlUpdate_shape maxInst alive p false m with
    ⟨hc, _⟩ | ⟨_, hlt, heq⟩ | ⟨_, hge, heq | ⟨i, hi1, hi2, _, heq⟩⟩
  · exact absurd hc (by simp)
  · rw [heq]
    have hne : (0 : Nat) ≠ (m.data 0 + 1).toNat := by omega
    simp [Mem.write_data, hne]
    omega
  · rw [heq]; exact ⟨h0, h⟩
  · rw [heq]
    have hne : (0 : Nat) ≠ i := by omega
    simp [Mem.write_data, hne]
    exact ⟨h0, h⟩

theorem runAttempts_count_bounded (maxInst : Int) : ∀ (attempts : List Attempt) (m : Mem),
    0 ≤ m.data 0 → m.data 0 ≤ maxInst →
    0 ≤ (runAttempts maxInst m attempts).data 0 ∧
    (runAttempts maxInst m attempts).data 0 ≤ maxInst := by
  intro attempts
  induction attempts with
  | nil => intro m h1 h2; exact ⟨h1, h2⟩
  | cons a rest ih =>
    intro m h1 h2
    have hstep := instControlUpdate_count_preserved maxInst a.alive a.pid m h1 h2
    exact ih _ hstep.1 hstep.2

/-- C5: over any sequence of admission steps on one key that all use the
same valid maximum, starting from the step that created the table, the
occupied count never exceeds `min maxInst MAX_INSTANCES`; the intrinsic
ceiling of 10 is never exceeded. -/
theorem occupancy_count_bounded (maxInst : Int) (alive0 : Int → Bool) (p0 : Int)
    (m : Mem) (attempts : List Attempt)
    (h1 : 1 ≤ maxInst) (h2 : maxInst ≤ MAX_INSTANCES) :
    (runAttempts maxInst ((instControlUpdate maxInst alive0 p0 true m).2) attempts).data 0
      ≤ min maxInst MAX_INSTANCES := by
  have hclean : ((instControlUpdate maxInst alive0 p0 true m).2).data 0 = 1 := rfl
  have hrun := runAttempts_count_bounded maxInst attempts
    ((instControlUpdate maxInst alive0 p0 true m).2) (by rw [hclean]; omega)
    (by rw [hclean]; omega)
  have : min maxInst MAX_INSTANCES = maxInst := by
    simp [MAX_INSTANCES] at h2 ⊢; omega
  rw [this]
  exact hrun.2

/-- Witness for C5: three steps with maximum 2 starting from a fresh table. -/
theorem occupancy_count_bounded_witness :
    (runAttempts 2 ((instControlUpdate 2 aliveC3 300 true memZero).2)
      [⟨aliveC3, 301⟩, ⟨aliveC3, 302⟩, ⟨aliveC3, 303⟩]).data 0 ≤ min 2 MAX_INSTANCES :=
  occupancy_count_bounded 2 aliveC3 300 memZero [⟨aliveC3, 301⟩, ⟨aliveC3, 302⟩, ⟨aliveC3, 303⟩]
    (by decide) (by decide)

/-- C7: the blocking loop never surfaces `WAITING` (`NoSlotAvailable`): it
returns `none` for any fuel exactly when every attempt so far came back
`WAITING` (so there is no maximum retry count), and when it returns, the
final attempt returned `UPDATED`, every earlier attempt returned `WAITING`,
and one fixed `sleep(BACKOFF)` was performed after each waiting attempt. -/
theorem blocking_admit_retries_until_success (maxInst : Int)
    (aliveAt : Nat → Int → Bool) (p : Int) (clean : Bool) (fuel k : Nat) (m : Mem) :
    (admitLoop maxInst aliveAt p clean k fuel m = none ↔
      ∀ j, k ≤ j → j < k + fuel →
        (instControlUpdate maxInst (aliveAt j) p clean m).1 = .WAITING)
    ∧ (∀ evs m2 j, admitLoop maxInst aliveAt p clean k fuel m = some (evs, m2, j) →
        (instControlUpdate maxInst (aliveAt j) p clean m).1 = .UPDATED
        ∧ (∀ i, k ≤ i → i < j → (instControlUpdate maxInst (aliveAt i) p clean m).1 = .WAITING)
        ∧ evs.count (Event.sleepEv BACKOFF) = j - k) := by
  refine ⟨admitLoop_none_iff maxInst aliveAt p clean fuel k m, ?_⟩
  intro evs m2 j h
  obtain ⟨h1, h2, h3, h4, h5, h6⟩ :=
    admitLoop_some_spec maxInst aliveAt p clean fuel k m evs m2 j h
  exact ⟨h3, h5, by rw [h6, loopEvs_count_sleep]⟩

/-- Witness for C7: one waiting attempt, one sleep, then success. -/
theorem blocking_admit_retries_until_success_witness :
    (instControlUpdate 1 (aliveAtW 1) 9 false memC2).1 = .UPDATED ∧
    ([Event.tableAccessEv, Event.sleepEv BACKOFF, Event.tableAccessEv].count
      (Event.sleepEv BACKOFF)) = 1 - 0 :=
  ⟨(((blocking_admit_retries_until_success 1 aliveAtW 9 false 2 0 memC2).2)
      [Event.tableAccessEv, Event.sleepEv BACKOFF, Event.tableAccessEv]
      (memC2.write 1 9) 1 rfl).1,
   (((blocking_admit_retries_until_success 1 aliveAtW 9 false 2 0 memC2).2)
      [Event.tableAccessEv, Event.sleepEv BACKOFF, Event.tableAccessEv]
      (memC2.write 1 9) 1 rfl).2.2⟩

theorem sleepWhileLocked_create (b ok2 : Bool) (l : List Event) :
    sleepWhileLocked b (Event.createEv ok2 :: l) = sleepWhileLocked b l := rfl

theorem sleepWhileLocked_attach (b : Bool) (l : List Event) :
    sleepWhileLocked b (Event.attachEv :: l) = sleepWhileLocked b l := rfl

theorem sleepWhileLocked_lock (b ok2 : Bool) (l : List Event) :
    sleepWhileLocked b (Event.lockEv ok2 :: l) = sleepWhileLocked ok2 l := rfl

theorem accessWhileUnlocked_create (b ok2 : Bool) (l : List Event) :
    accessWhileUnlocked b (Event.createEv ok2 :: l) = accessWhileUnlocked b l := rfl

theorem accessWhileUnlocked_attach (b : Bool) (l : List Event) :
    accessWhileUnlocked b (Event.attachEv :: l) = accessWhileUnlocked b l := rfl

theorem accessWhileUnlocked_lock (b ok2 : Bool) (l : List Event) :
    accessWhileUnlocked b (Event.lockEv ok2 :: l) = accessWhileUnlocked ok2 l := rfl

theorem accessWhileUnlocked_access (b : Bool) (l : List Event) :
    accessWhileUnlocked b (Event.tableAccessEv :: l) = (!b || accessWhileUnlocked b l) := rfl

/-- C2 counterexample: a run of `limitInstances` that retries once does
sleep while the mutex is held.  The lock is taken once before the loop and
released only after it, so the backoff sleep between the `NoSlotAvailable`
attempt and the successful retry happens with the lock held. -/
theorem lock_held_during_backoff_sleep :
    (limitInstances envC2 true 1 2).map (fun r => sleepWhileLocked false r.2.1) =
      some true := by
  rfl

/-- C2 (amended): in the blocking admit loop the inter-process mutex is
acquired once before the first attempt and released only after an attempt
succeeds, so whenever the lock call succeeded and the run contains a
backoff sleep, that sleep happens while the mutex is held (it is NOT
released before sleeping). -/
theorem lock_held_across_backoff_sleeps (e : Env) (ok : Bool) (maxInst : Int)
    (fuel : Nat) (code : Int) (evs : List Event) (m : Mem)
    (hlock : e.lockOk = true)
    (h : limitInstances e ok maxInst fuel = some (code, evs, m))
    (hs : Event.sleepEv BACKOFF ∈ evs) :
    sleepWhileLocked false evs = true := by
  by_cases hv : ok = false ∨ maxInst > MAX_INSTANCES
  · rw [limitInstances_invalid e ok maxInst fuel hv] at h
    simp only [Option.some.injEq, Prod.mk.injEq] at h
    rw [← h.2.1] at hs
    simp at hs
  · rw [limitInstances_valid_eq e ok maxInst fuel hv] at h
    cases hrec : admitLoop maxInst e.aliveAt e.pid e.createOk 0 fuel e.mem0 with
    | none => rw [hrec] at h; exact absurd h (by simp)
    | some val =>
      obtain ⟨evs0, m0, j⟩ := val
      rw [hrec] at h
      simp only [Option.some.injEq, Prod.mk.injEq] at h
      obtain ⟨-, hevs, -⟩ := h
      obtain ⟨-, -, -, -, -, h6⟩ :=
        admitLoop_some_spec maxInst e.aliveAt e.pid e.createOk fuel 0 e.mem0 evs0 m0 j hrec
      rw [← hevs, hlock, h6] at hs ⊢
      cases hco : e.createOk with
      | true =>
        have hsj : Event.sleepEv BACKOFF ∈ loopEvs (j - 0) := by simpa using hs
        have hif : (if (true : Bool) = true then ([] : List Event) else [Event.attachEv]) =
            [] := rfl
        rw [hif]
        simp only [List.nil_append, List.cons_append, List.append_assoc,
          List.singleton_append]
        rw [sleepWhileLocked_create, sleepWhileLocked_lock]
        exact sleepWhileLocked_loopEvs (j - 0) _ (loopEvs_sleep_pos _ hsj)
      | false =>
        have hsj : Event.sleepEv BACKOFF ∈ loopEvs (j - 0) := by simpa using hs
        have hif : (if (false : Bool) = true then ([] : List Event) else [Event.attachEv]) =
            [Event.attachEv] := rfl
        rw [hif]
        simp only [List.nil_append, List.cons_append, List.append_assoc,
          List.singleton_append]
        rw [sleepWhileLocked_create, sleepWhileLocked_attach, sleepWhileLocked_lock]
        exact sleepWhileLocked_loopEvs (j - 0) _ (loopEvs_sleep_pos _ hsj)

/-- Witness for C2 (amended) on the concrete retrying run. -/
theorem lock_held_across_backoff_sleeps_witness :
    sleepWhileLocked false
      [Event.createEv false, Event.attachEv, Event.lockEv true, Event.tableAccessEv,
        Event.sleepEv BACKOFF, Event.tableAccessEv, Event.unlockEv, Event.detachEv] = true :=
  lock_held_across_backoff_sleeps envC2 true 1 2 EXIT_SUCCESS
    [Event.createEv false, Event.attachEv, Event.lockEv true, Event.tableAccessEv,
      Event.sleepEv BACKOFF, Event.tableAccessEv, Event.unlockEv, Event.detachEv]
    (memC2.write 1 9) rfl rfl (by decide)

/-- C8 counterexample: the diagnostic printed on an invalid configured
maximum names the range 0 to 10, not the valid range 1 to 10: running with
`max-instances = 11` exits with `EXIT_FAILURE` printing exactly
`"You must set max-instances using numbers [0 - 10]"`. -/
theorem diagnostic_names_zero_to_ten :
    mainMaxInstances envC8 true true 11 1 =
      some (some (EXIT_FAILURE, "You must set max-instances using numbers [0 - 10]")) ∧
    EXIT_FAILURE ≠ 0 := by
  exact ⟨rfl, by decide⟩

/-- C8 (amended): when admission fails because of an invalid configured
maximum the program terminates with the non-zero status `EXIT_FAILURE` and
prints a diagnostic — but the diagnostic names the range 0 to 10 (lower
bound 0, matching neither the enforced check nor the spec's 1..10); on
admission success nothing is printed and control returns to the pipeline. -/
theorem invalid_config_exit_contract (e : Env) (ok : Bool) (maxInst : Int)
    (fuel : Nat) (h : ok = false ∨ maxInst > MAX_INSTANCES) :
    mainMaxInstances e true ok maxInst fuel =
      some (some (EXIT_FAILURE, maxInstancesMessage))
    ∧ EXIT_FAILURE ≠ 0
    ∧ maxInstancesMessage = "You must set max-instances using numbers [0 - 10]"
    ∧ ∀ (e2 : Env) (ok2 : Bool) (mi2 : Int) (fuel2 : Nat) (evs : List Event) (m : Mem),
        limitInstances e2 ok2 mi2 fuel2 = some (EXIT_SUCCESS, evs, m) →
        mainMaxInstances e2 true ok2 mi2 fuel2 = some none := by
  refine ⟨?_, by decide, rfl, ?_⟩
  · simp only [mainMaxInstances, if_true, limitInstances_invalid e ok maxInst fuel h]
  · intro e2 ok2 mi2 fuel2 evs m hlim
    simp only [mainMaxInstances, if_true, hlim]
    have : ¬ EXIT_SUCCESS = EXIT_FAILURE := by decide
    simp [this]

/-- Witness for C8 (amended) at maximum 11. -/
theorem invalid_config_exit_contract_witness :
    mainMaxInstances envC8 true true 11 1 =
      some (some (EXIT_FAILURE, maxInstancesMessage))
    ∧ EXIT_FAILURE ≠ 0
    ∧ maxInstancesMessage = "You must set max-instances using numbers [0 - 10]" :=
  ⟨(invalid_config_exit_contract envC8 true 11 1 (Or.inr (by decide))).1,
   (invalid_config_exit_contract envC8 true 11 1 (Or.inr (by decide))).2.1,
   (invalid_config_exit_contract envC8 true 11 1 (Or.inr (by decide))).2.2.1⟩

/-- C9 counterexample: with a failing lock call, the admission attempt still
proceeds: the run returns `EXIT_SUCCESS` (the caller is admitted) and its
trace accesses the shared table while the lock is not held. -/
theorem proceeds_without_lock :
    (limitInstances envC9 true 1 1).map (fun r => (r.1, accessWhileUnlocked false r.2.1)) =
      some (EXIT_SUCCESS, true) := by
  rfl

/-- C9 (amended): when acquiring the inter-process lock fails, the code logs
the failure and proceeds anyway: every completed run with a valid maximum
still returns `EXIT_SUCCESS` (the caller is admitted) and reads and writes
the occupancy count and slot contents without holding the lock. -/
theorem lock_failure_still_admits (e : Env) (ok : Bool) (maxInst : Int)
    (fuel : Nat) (code : Int) (evs : List Event) (m : Mem)
    (hok : ok = true) (hmax : maxInst ≤ MAX_INSTANCES)
    (hlock : e.lockOk = false)
    (h : limitInstances e ok maxInst fuel = some (code, evs, m)) :
    code = EXIT_SUCCESS ∧ accessWhileUnlocked false evs = true := by
  have hv : ¬(ok = false ∨ maxInst > MAX_INSTANCES) := by
    rintro (h1 | h1)
    · rw [hok] at h1; cases h1
    · omega
  rw [limitInstances_valid_eq e ok maxInst fuel hv] at h
  cases hrec : admitLoop maxInst e.aliveAt e.pid e.createOk 0 fuel e.mem0 with
  | none => rw [hrec] at h; exact absurd h (by simp)
  | some val =>
    obtain ⟨evs0, m0, j⟩ := val
    rw [hrec] at h
    simp only [Option.some.injEq, Prod.mk.injEq] at h
    obtain ⟨hcode, hevs, -⟩ := h
    obtain ⟨-, -, -, -, -, h6⟩ :=
      admitLoop_some_spec maxInst e.aliveAt e.pid e.createOk fuel 0 e.mem0 evs0 m0 j hrec
    obtain ⟨tl, htl⟩ := loopEvs_head (j - 0)
    refine ⟨hcode.symm, ?_⟩
    rw [← hevs, hlock, h6, htl]
    cases hco : e.createOk with
    | true =>
      have hif : (if (true : Bool) = true then ([] : List Event) else [Event.attachEv]) =
          [] := rfl
      rw [hif]
      simp only [List.nil_append, List.cons_append, List.append_assoc,
        List.singleton_append]
      rw [accessWhileUnlocked_create, accessWhileUnlocked_lock, accessWhileUnlocked_access]
      simp
    | false =>
      have hif : (if (false : Bool) = true then ([] : List Event) else [Event.attachEv]) =
          [Event.attachEv] := rfl
      rw [hif]
      simp only [List.nil_append, List.cons_append, List.append_assoc,
        List.singleton_append]
      rw [accessWhileUnlocked_create, accessWhileUnlocked_attach, accessWhileUnlocked_lock,
        accessWhileUnlocked_access]
      simp

/-- Witness for C9 (amended) on the concrete lock-failing run. -/
theorem lock_failure_still_admits_witness :
    EXIT_SUCCESS = EXIT_SUCCESS ∧ accessWhileUnlocked false
      [Event.createEv true, Event.lockEv false, Event.tableAccessEv,
        Event.unlockEv, Event.detachEv] = true :=
  lock_failure_still_admits envC9 true 1 1 EXIT_SUCCESS
    [Event.createEv true, Event.lockEv false, Event.tableAccessEv,
      Event.unlockEv, Event.detachEv]
    ((memZero.write 0 1).write 1 5) rfl (by decide) rfl rfl
